import Mathlib

/-!
Shallow embedding of the network-graph builder of
`src/scripts/network-view.js` (class `NetworkView`), together with the
hit-testing, update and lifecycle entry points that the verified
properties talk about.

Conventions of the embedding:
* JS numbers appearing in the builder are exact decimals; they are
  modelled by `ℚ` (e.g. `1.2` becomes `12/10`).
* `Math.cos(a)` / `Math.sin(a)` are external deterministic functions;
  every angle the builder passes to them has the shape `2 * π * t` for a
  rational number `t` of "turns", so they are modelled by two function
  parameters `mcos msin : ℚ → ℚ` applied to `t`.
* `Math.random()` is modelled by a stream `rng : ℕ → ℚ` consumed in call
  order: the source node at (relative) index `l` makes the calls
  `rng (2*l)` (angle variation) and `rng (2*l+1)` (radius variation).
* A JS `Map` whose `set` overwrites earlier bindings is modelled per key
  family; the four key families (`category_`, `variable_`, `model_`,
  `source_`) never collide because the prefixes differ, so a `get` is a
  search for the last inserted node of the family whose key part matches
  (`lastWith` below, a `find?` on the reversed phase list).
* `source.trim()` is `String.trim`.
-/

namespace NetworkView

/-- A variable entry of the input catalog, after the data manager has
normalised `sources` and `models` to string lists. -/
structure SVariable where
  vid : String
  vname : String
  category : String
  sources : List String
  models : List String
  units : String := ""
  description : String := ""
deriving DecidableEq, Repr

/-- A model entry of the input catalog. -/
structure SModel where
  name : String
  fullName : String := ""
  description : String := ""
  domain : String := ""
  institution : String := ""
  website : String := ""
deriving DecidableEq, Repr

/-- The catalog handed to `processData`: the ordered variable and model
collections (`vars` is the JS `variables` argument; `variables` is not a
legal Lean field name). -/
structure Catalog where
  vars : List SVariable
  models : List SModel
deriving DecidableEq, Repr

/-- A graph node produced for one render pass.  `vars` is the JS field
`variables` (the back-references stored on category, model and source
nodes); `vid` is the JS `variable.id` stored on variable nodes and used
as their map key; `category` is the category string stored on variable
nodes. -/
structure GNode where
  id : ℕ
  name : String
  ntype : String
  x : ℚ
  y : ℚ
  radius : ℚ
  color : String := ""
  vars : List SVariable := []
  variableCount : ℕ := 0
  vid : String := ""
  category : String := ""
deriving DecidableEq, Repr

instance : Inhabited GNode :=
  ⟨{ id := 0, name := "", ntype := "", x := 0, y := 0, radius := 0 }⟩

/-- A graph edge produced for one render pass. -/
structure GLink where
  source : ℕ
  target : ℕ
  ltype : String
  strength : ℚ
  color : String
  distance : ℚ
deriving DecidableEq, Repr

/-- The deterministic external parameters of one render pass: the trig
functions (in turns, see the file comment) and the canvas dimensions. -/
structure Env where
  mcos : ℚ → ℚ
  msin : ℚ → ℚ
  w : ℚ
  h : ℚ

/-- JS `String.prototype.includes` on our strings. -/
def strIncludes (s pat : String) : Bool :=
  decide (pat.data <:+: s.data)

/-- `getModelColor` of the source. -/
def getModelColor (modelName : String) : String :=
  if modelName == "ECCO" then "#2196f3"
  else if modelName == "ISSM" then "#ff9800"
  else if modelName == "CARDAMOM" then "#9c27b0"
  else if modelName == "CMS-FLUX" then "#4caf50"
  else if modelName == "MOMO-CHEM" then "#e91e63"
  else "#607d8b"

/-- `getCategoryColor` of the source. -/
def getCategoryColor (category : String) : String :=
  if category == "Ocean and Sea Ice Variables" then "#4facfe"
  else if category == "Land and Terrestrial Variables" then "#43e97b"
  else if category == "Atmospheric Composition" then "#fa709a"
  else if category == "Carbon Cycle Components" then "#fee140"
  else if category == "Climate and Reanalysis" then "#a8edea"
  else "#95a5a6"

/-- `getVariableColor` of the source. -/
def getVariableColor (category : String) : String :=
  if category == "Ocean and Sea Ice Variables" then "#7cc4ff"
  else if category == "Land and Terrestrial Variables" then "#6bf28a"
  else if category == "Atmospheric Composition" then "#fb8ba8"
  else if category == "Carbon Cycle Components" then "#ffea6b"
  else if category == "Climate and Reanalysis" then "#bff2ee"
  else "#b4c5d1"

/-- `getSourceColor` of the source: substring matching on mission names. -/
def getSourceColor (s : String) : String :=
  if strIncludes s "GRACE" || strIncludes s "GOCE" then "#8bc34a"
  else if strIncludes s "ICESat" || strIncludes s "GLAS" then "#00bcd4"
  else if strIncludes s "MODIS" || strIncludes s "VIIRS" then "#ff5722"
  else if strIncludes s "AVHRR" || strIncludes s "METOP" then "#3f51b5"
  else if strIncludes s "OCO" || strIncludes s "GOSAT" then "#795548"
  else if strIncludes s "OMI" || strIncludes s "TROPOMI" then "#9e9e9e"
  else if strIncludes s "Landsat" || strIncludes s "Sentinel" then "#ff9800"
  else if strIncludes s "JASON" || strIncludes s "TOPEX" then "#2196f3"
  else if strIncludes s "SMAP" || strIncludes s "SMOS" then "#4caf50"
  else if strIncludes s "ARGO" || strIncludes s "CTD" then "#00acc1"
  else "#607d8b"

/-- Insertion-order deduplication: iterating a JS `Set` yields elements
in first-insertion order, so `new Set(list)` traversed in order is the
list with every later duplicate dropped. -/
def firstDedup : List String → List String
  | [] => []
  | s :: rest => s :: (firstDedup rest).filter (fun t => !(t == s))

/-- The `allSources` set of `processData`, in iteration order: the
trimmed source strings of all variables, first occurrences kept. -/
def allSourcesList (cat : Catalog) : List String :=
  firstDedup (cat.vars.flatMap (fun v => v.sources.map String.trim))

/-- `categories = [...new Set(variables.map(v => v.category))]`. -/
def categoriesOf (cat : Catalog) : List String :=
  firstDedup (cat.vars.map (fun v => v.category))

/-- `variables.filter(v => v.category === category)`. -/
def categoryVariablesOf (cat : Catalog) (c : String) : List SVariable :=
  cat.vars.filter (fun v => v.category == c)

/-- The category-node radius formula `40 + categoryVariables.length * 1.2`. -/
def categoryNodeRadius (count : ℕ) : ℚ :=
  40 + count * (12 / 10)

/-- The model-node radius formula `25 + modelVariables.length * 0.8`. -/
def modelNodeRadius (count : ℕ) : ℚ :=
  25 + count * (8 / 10)

/-- The source-node radius formula `6 + Math.min(sourceVariables.length * 0.8, 8)`. -/
def sourceNodeRadius (count : ℕ) : ℚ :=
  6 + min ((count : ℚ) * (8 / 10)) 8

/-- `Map.get` semantics for one key family: the value of the last `set`
with a matching key wins, hence a search over the reversed phase list. -/
def lastWith (ns : List GNode) (p : GNode → Bool) : Option GNode :=
  ns.reverse.find? p

/-- Lookup of `nodeMap.get("category_" + c)` among the category nodes. -/
def lookupCategoryNode (cns : List GNode) (c : String) : Option GNode :=
  lastWith cns (fun n => n.name == c)

/-- Lookup of `nodeMap.get("variable_" + id)` among the variable nodes. -/
def lookupVariableNode (vns : List GNode) (i : String) : Option GNode :=
  lastWith vns (fun n => n.vid == i)

/-- Lookup of `nodeMap.get("model_" + name)` among the model nodes. -/
def lookupModelNode (mns : List GNode) (m : String) : Option GNode :=
  lastWith mns (fun n => n.name == m)

/-- Lookup of `nodeMap.get("source_" + s)` among the source nodes. -/
def lookupSourceNode (sns : List GNode) (s : String) : Option GNode :=
  lastWith sns (fun n => n.name == s)

/-- Phase 1 of `processData`: one category node per distinct category,
placed on a polar ring of radius `min(width, height) * 0.12` around the
canvas center, at angle `(i / numCategories) * 2 * π`. -/
def mkCategoryNode (E : Env) (cat : Catalog) (numCategories : ℕ) (i : ℕ)
    (c : String) : GNode :=
  let cvs := categoryVariablesOf cat c
  let ringR := min E.w E.h * (12 / 100)
  { id := i
    name := c
    ntype := "category"
    x := E.w * (1 / 2) + E.mcos ((i : ℚ) / numCategories) * ringR
    y := E.h * (1 / 2) + E.msin ((i : ℚ) / numCategories) * ringR
    radius := categoryNodeRadius cvs.length
    color := getCategoryColor c
    vars := cvs
    variableCount := cvs.length }

/-- The category-node list of one render pass; ids start at 0. -/
def categoryNodes (E : Env) (cat : Catalog) : List GNode :=
  let cs := categoriesOf cat
  cs.enum.map (fun p => mkCategoryNode E cat cs.length p.1 p.2)

/-- `categoryVariables.findIndex(v => v.id === variable.id)`.  (In the
source a missing entry would give -1; it cannot be missing because the
list was filtered on the very category of the variable.) -/
def variableIndexIn (cvs : List SVariable) (v : SVariable) : ℕ :=
  cvs.findIdx (fun u => u.vid == v.vid)

/-- Phase 2 of `processData`: a variable node, placed on a circle of
radius `100 + categoryVariables.length * 1.5` around its category node.
The `getD` default is unreachable: the category node of a variable
always exists (the JS code would fault on `undefined.x` otherwise). -/
def mkVariableNode (E : Env) (cat : Catalog) (cns : List GNode) (j : ℕ)
    (v : SVariable) : GNode :=
  let cn := (lookupCategoryNode cns v.category).getD default
  let cvs := categoryVariablesOf cat v.category
  let idx := variableIndexIn cvs v
  let dist : ℚ := 100 + (cvs.length : ℚ) * (15 / 10)
  { id := j
    name := v.vname
    ntype := "variable"
    category := v.category
    x := cn.x + E.mcos ((idx : ℚ) / cvs.length) * dist
    y := cn.y + E.msin ((idx : ℚ) / cvs.length) * dist
    radius := 8
    color := getVariableColor v.category
    vid := v.vid }

/-- The variable-node list; ids continue after the category ids. -/
def variableNodes (E : Env) (cat : Catalog) : List GNode :=
  let j0 := (categoriesOf cat).length
  let cns := categoryNodes E cat
  cat.vars.enum.map (fun p => mkVariableNode E cat cns (j0 + p.1) p.2)

/-- The fixed strategic `modelPositions` slots (as canvas fractions),
with the `{ x: 0.5, y: 0.95 }` fallback for indices past the table. -/
def modelSlot (index : ℕ) : ℚ × ℚ :=
  if index = 0 then (12 / 100, 15 / 100)
  else if index = 1 then (88 / 100, 15 / 100)
  else if index = 2 then (12 / 100, 85 / 100)
  else if index = 3 then (88 / 100, 85 / 100)
  else if index = 4 then (1 / 2, 5 / 100)
  else (1 / 2, 95 / 100)

/-- `variables.filter(v => vModels.includes(model.name))`. -/
def modelVariablesOf (cat : Catalog) (m : SModel) : List SVariable :=
  cat.vars.filter (fun v => v.models.contains m.name)

/-- Phase 3 of `processData`: a model node parked at its strategic slot. -/
def mkModelNode (E : Env) (cat : Catalog) (k0 : ℕ) (k : ℕ) (m : SModel) :
    GNode :=
  let pos := modelSlot k
  let mvs := modelVariablesOf cat m
  { id := k0 + k
    name := m.name
    ntype := "model"
    x := E.w * pos.1
    y := E.h * pos.2
    radius := modelNodeRadius mvs.length
    color := getModelColor m.name
    vars := mvs
    variableCount := mvs.length }

/-- The model-node list; ids continue after category and variable ids. -/
def modelNodes (E : Env) (cat : Catalog) : List GNode :=
  let k0 := (categoriesOf cat).length + cat.vars.length
  cat.models.enum.map (fun p => mkModelNode E cat k0 p.1 p.2)

/-- `sourceArray`: the deduplicated trimmed sources, minus the empty
string (falsy in the JS `source &&` test) and `"Various sources"`. -/
def sourceNamesOf (cat : Catalog) : List String :=
  (allSourcesList cat).filter (fun s => !(s == "") && !(s == "Various sources"))

/-- `variables.filter(v => sources.some(s => s.trim() === source))`. -/
def sourceVariablesOf (cat : Catalog) (s : String) : List SVariable :=
  cat.vars.filter (fun v => v.sources.any (fun t => t.trim == s))

/-- Phase 4 of `processData`: a source node in its perimeter sector
(`l % 12` of 12 sectors), with random angle and radius variation.  In
turns, `(rand - 0.5) * (2π/12 * 0.6)` is `(rand - 0.5) / 20`. -/
def mkSourceNode (E : Env) (rng : ℕ → ℚ) (cat : Catalog) (l0 l : ℕ)
    (s : String) : GNode :=
  let sector := l % 12
  let ringR := min E.w E.h * (42 / 100)
  let angleVar := (rng (2 * l) - 1 / 2) * (1 / 20)
  let radiusVar := (rng (2 * l + 1) - 1 / 2) * 40
  let svs := sourceVariablesOf cat s
  { id := l0 + l
    name := s
    ntype := "source"
    x := E.w * (1 / 2) + E.mcos ((sector : ℚ) / 12 + angleVar) * (ringR + radiusVar)
    y := E.h * (1 / 2) + E.msin ((sector : ℚ) / 12 + angleVar) * (ringR + radiusVar)
    radius := sourceNodeRadius svs.length
    color := getSourceColor s
    vars := svs
    variableCount := svs.length }

/-- The source-node list; ids continue after all other ids. -/
def sourceNodes (E : Env) (rng : ℕ → ℚ) (cat : Catalog) : List GNode :=
  let l0 := (categoriesOf cat).length + cat.vars.length + cat.models.length
  (sourceNamesOf cat).enum.map (fun p => mkSourceNode E rng cat l0 p.1 p.2)

/-- Link phase 1: `category-variable` links, one attempted per variable,
created when both map lookups succeed. -/
def categoryVariableLinks (E : Env) (cat : Catalog) : List GLink :=
  let cns := categoryNodes E cat
  let vns := variableNodes E cat
  cat.vars.filterMap (fun v =>
    match lookupVariableNode vns v.vid, lookupCategoryNode cns v.category with
    | some vn, some cn =>
        some { source := cn.id, target := vn.id, ltype := "category-variable",
               strength := 8 / 10, color := "#43e97b", distance := 80 }
    | _, _ => none)

/-- Link phase 2: `variable-model` links, one attempted per (variable,
model-name) occurrence, created when both map lookups succeed — a model
name absent from the model list is skipped silently. -/
def variableModelLinks (E : Env) (cat : Catalog) : List GLink :=
  let vns := variableNodes E cat
  let mns := modelNodes E cat
  cat.vars.flatMap (fun v =>
    let vn? := lookupVariableNode vns v.vid
    v.models.filterMap (fun m =>
      match vn?, lookupModelNode mns m with
      | some vn, some mn =>
          some { source := vn.id, target := mn.id, ltype := "variable-model",
                 strength := 4 / 10, color := "#667eea", distance := 150 }
      | _, _ => none))

/-- Link phase 3: `variable-source` links, guarded additionally by
`sourceName.trim() !== "Various sources"`. -/
def variableSourceLinks (E : Env) (rng : ℕ → ℚ) (cat : Catalog) : List GLink :=
  let vns := variableNodes E cat
  let sns := sourceNodes E rng cat
  cat.vars.flatMap (fun v =>
    let vn? := lookupVariableNode vns v.vid
    v.sources.filterMap (fun sName =>
      match vn?, lookupSourceNode sns sName.trim with
      | some vn, some sn =>
          if sName.trim == "Various sources" then none
          else some { source := vn.id, target := sn.id,
                      ltype := "variable-source", strength := 2 / 10,
                      color := "#ffa726", distance := 120 }
      | _, _ => none))

/-- The node and link arrays produced by one `processData` run. -/
structure NetData where
  nodes : List GNode
  links : List GLink
deriving DecidableEq, Repr

/-- `NetworkView.processData` (comprehensive view): four node phases in
order, then the three link phases.  The function is total: malformed
references are skipped, never raised. -/
def processData (E : Env) (rng : ℕ → ℚ) (cat : Catalog) : NetData :=
  { nodes := categoryNodes E cat ++ variableNodes E cat ++ modelNodes E cat
      ++ sourceNodes E rng cat
    links := categoryVariableLinks E cat ++ variableModelLinks E cat
      ++ variableSourceLinks E rng cat }

/-- Squared pointer distance; the source compares
`Math.sqrt(dx*dx + dy*dy) < 20`, equivalent over the reals to
`dx*dx + dy*dy < 400`. -/
def distSq (n : GNode) (x y : ℚ) : ℚ :=
  (n.x - x) * (n.x - x) + (n.y - y) * (n.y - y)

/-- The fixed 20-pixel hit test of `getNodeAt`. -/
def withinHitRadius (n : GNode) (x y : ℚ) : Bool :=
  decide (distSq n x y < 400)

/-- `NetworkView.getNodeAt`: `this.nodes.find(...)` — the first node of
the list within the fixed hit radius. -/
def getNodeAt (nodes : List GNode) (x y : ℚ) : Option GNode :=
  nodes.find? (fun n => withinHitRadius n x y)

/-- `NetworkView.update`: re-filters the `variables` field of every
category node from the (filtered) variable list; all other nodes and
fields are left as they are. -/
def update (vs : List SVariable) (ns : List GNode) : List GNode :=
  ns.map (fun n =>
    if n.ntype == "category"
    then { n with vars := vs.filter (fun v => v.category == n.name) }
    else n)

/-- The mutable component state: which capabilities were stored by a
successful `init`, plus the graph arrays. -/
structure NVState where
  canvasSet : Bool
  contextSet : Bool
  simulationSet : Bool
  nodes : List GNode
  links : List GLink
deriving DecidableEq, Repr

/-- The constructor state: `canvas`, `context` and `simulation` are
`null`, the arrays empty. -/
def initialState : NVState :=
  { canvasSet := false, contextSet := false, simulationSet := false,
    nodes := [], links := [] }

/-- Observable side effects of the entry points.  Drawing, downloading
and zoom transitions touch only the canvas and DOM, so they are recorded
as effect tokens. -/
inductive Eff
  | warnMissing
  | logInit
  | drawFrame
  | downloadImage
  | zoomReset
deriving DecidableEq, Repr

/-- `NetworkView.init`: when the canvas element or the d3 capability is
missing, a warning is logged and the method returns before storing
anything; otherwise the state is populated via `processData`. -/
def NVState.init (st : NVState) (E : Env) (rng : ℕ → ℚ)
    (canvasProvided d3Available : Bool) (cat : Catalog) :
    NVState × List Eff :=
  if !canvasProvided || !d3Available then
    (st, [Eff.warnMissing])
  else
    let d := processData E rng cat
    ({ canvasSet := true, contextSet := true, simulationSet := true,
       nodes := d.nodes, links := d.links }, [Eff.logInit])

/-- `NetworkView.render`: returns at once when no drawing context is
stored; otherwise draws a frame (state unchanged). -/
def NVState.render (st : NVState) : NVState × List Eff :=
  if !st.contextSet then (st, []) else (st, [Eff.drawFrame])

/-- `NetworkView.exportImage`: returns at once when no canvas is stored. -/
def NVState.exportImage (st : NVState) : NVState × List Eff :=
  if !st.canvasSet then (st, []) else (st, [Eff.downloadImage])

/-- `NetworkView.reset`: guarded by d3 being available and a canvas
being stored. -/
def NVState.reset (st : NVState) (d3Available : Bool) : NVState × List Eff :=
  if d3Available && st.canvasSet then (st, [Eff.zoomReset]) else (st, [])

/-- A concrete environment used to evaluate the builder on sample data. -/
def E0 : Env := ⟨fun _ => 0, fun _ => 0, 800, 600⟩

/-- A concrete random stream used to evaluate the builder. -/
def rng0 : ℕ → ℚ := fun _ => 0

/-- A small concrete catalog: two categories, two variables, two models;
one variable references a model name (`NOPE`) absent from the model
list and the dirty source `"Various sources"`. -/
def demoCat : Catalog :=
  { vars := [
      { vid := "ssh", vname := "Sea Surface Height", category := "Ocean",
        sources := ["JASON-3", "Various sources"], models := ["ECCO", "NOPE"] },
      { vid := "iv", vname := "Ice Velocity", category := "Land",
        sources := ["  ICESat-2  "], models := ["ISSM"] }],
    models := [{ name := "ECCO" }, { name := "ISSM" }] }

/-- The category-to-variable link that `processData` produces for the
first demo variable (category node 0, variable node 2). -/
def demoCVLink : GLink :=
  { source := 0, target := 2, ltype := "category-variable",
    strength := 8 / 10, color := "#43e97b", distance := 80 }

/-- The variable-to-source link that `processData` produces for the
first demo variable (variable node 2, source node 6). -/
def demoVSLink : GLink :=
  { source := 2, target := 6, ltype := "variable-source",
    strength := 2 / 10, color := "#ffa726", distance := 120 }

/-- A node 15 pixels from the origin: inside the 20-pixel hit radius but
further away than `hitDemoNear`. -/
def hitDemoFar : GNode :=
  { id := 0, name := "far", ntype := "variable", x := 15, y := 0, radius := 8 }

/-- A node 1 pixel from the origin: the nearest node to the pointer. -/
def hitDemoNear : GNode :=
  { id := 1, name := "near", ntype := "variable", x := 1, y := 0, radius := 8 }

section Lemmas

/-- Membership is invariant under insertion-order deduplication. -/
lemma mem_firstDedup {l : List String} {a : String} :
    a ∈ firstDedup l ↔ a ∈ l := by
  induction l with
  | nil => simp [firstDedup]
  | cons s rest ih =>
    by_cases h : a = s <;> simp [firstDedup, List.mem_filter, ih, h]

/-- Insertion-order deduplication produces a duplicate-free list. -/
lemma nodup_firstDedup (l : List String) : (firstDedup l).Nodup := by
  induction l with
  | nil => simp [firstDedup]
  | cons s rest ih =>
    rw [firstDedup, List.nodup_cons]
    exact ⟨by simp [List.mem_filter], ih.filter _⟩

/-- The length of the deduplicated list is the number of distinct values. -/
lemma length_firstDedup (l : List String) :
    (firstDedup l).length = l.toFinset.card := by
  have h1 : (firstDedup l).toFinset = l.toFinset := by
    ext a
    simp [List.mem_toFinset, mem_firstDedup]
  rw [← h1, List.toFinset_card_of_nodup (nodup_firstDedup l)]

/-- A `filterMap` whose function always succeeds keeps every element. -/
lemma length_filterMap_of_isSome {α β : Type} (f : α → Option β) :
    ∀ l : List α, (∀ a ∈ l, (f a).isSome) →
      (l.filterMap f).length = l.length := by
  intro l
  induction l with
  | nil => simp
  | cons a t ih =>
    intro h
    cases hfa : f a with
    | none =>
      have := h a (by simp)
      rw [hfa] at this
      simp at this
    | some b =>
      simp only [List.filterMap_cons, hfa, List.length_cons]
      rw [ih (fun x hx => h x (List.mem_cons_of_mem _ hx))]

/-- A `filterMap` succeeds exactly where a boolean predicate holds, so
its length is the length of the corresponding `filter`. -/
lemma length_filterMap_eq_filter {α β : Type} (f : α → Option β) (p : α → Bool) :
    ∀ l : List α, (∀ a ∈ l, (f a).isSome = p a) →
      (l.filterMap f).length = (l.filter p).length := by
  intro l
  induction l with
  | nil => simp
  | cons a t ih =>
    intro h
    have ha := h a (by simp)
    have ht := ih (fun x hx => h x (List.mem_cons_of_mem _ hx))
    cases hfa : f a with
    | none =>
      rw [hfa] at ha
      simp only [Option.isSome_none] at ha
      simp [List.filterMap_cons, hfa, List.filter_cons, ← ha, ht]
    | some b =>
      rw [hfa] at ha
      simp only [Option.isSome_some] at ha
      simp [List.filterMap_cons, hfa, List.filter_cons, ← ha, ht]

/-- A successful last-binding lookup returns a member satisfying the key
predicate. -/
lemma lastWith_eq_some {ns : List GNode} {p : GNode → Bool} {n : GNode}
    (h : lastWith ns p = some n) : n ∈ ns ∧ p n = true :=
  ⟨List.mem_reverse.mp (List.mem_of_find?_eq_some h), List.find?_some h⟩

/-- A last-binding lookup succeeds exactly when some member matches. -/
lemma lastWith_isSome_iff {ns : List GNode} {p : GNode → Bool} :
    (lastWith ns p).isSome ↔ ∃ n ∈ ns, p n = true := by
  simp [lastWith, List.find?_isSome, List.mem_reverse]

/-- Generic description of a phase list mapped to its id field. -/
lemma map_fst_style {α β : Type} (l : List α) (g : ℕ × α → β) (f : β → ℕ)
    (off : ℕ) (h : ∀ p, f (g p) = off + p.1) :
    (l.enum.map g).map f = (List.range l.length).map (fun i => off + i) := by
  rw [List.map_map]
  have hfg : f ∘ g = (fun i => off + i) ∘ Prod.fst := funext h
  rw [hfg, ← List.map_map, List.enum_map_fst]

/-- Generic description of a phase list mapped to a payload field. -/
lemma map_snd_style {α β γ : Type} (l : List α) (g : ℕ × α → β) (f : β → γ)
    (f2 : α → γ) (h : ∀ p, f (g p) = f2 p.2) :
    (l.enum.map g).map f = l.map f2 := by
  rw [List.map_map]
  have hfg : f ∘ g = f2 ∘ Prod.snd := funext h
  rw [hfg, ← List.map_map, List.enum_map_snd]

/-- Category-node ids are `0, 1, …` in phase order. -/
lemma categoryNodes_map_id (E : Env) (cat : Catalog) :
    (categoryNodes E cat).map GNode.id
      = List.range (categoriesOf cat).length := by
  simp only [categoryNodes]
  have h := map_fst_style (categoriesOf cat)
    (fun p => mkCategoryNode E cat (categoriesOf cat).length p.1 p.2)
    GNode.id 0 (fun p => (Nat.zero_add p.1).symm)
  simpa using h

/-- Variable-node ids continue after the category ids. -/
lemma variableNodes_map_id (E : Env) (cat : Catalog) :
    (variableNodes E cat).map GNode.id
      = (List.range cat.vars.length).map
          (fun i => (categoriesOf cat).length + i) := by
  simp only [variableNodes]
  exact map_fst_style cat.vars
    (fun p => mkVariableNode E cat (categoryNodes E cat)
      ((categoriesOf cat).length + p.1) p.2)
    GNode.id (categoriesOf cat).length (fun p => rfl)

/-- Model-node ids continue after category and variable ids. -/
lemma modelNodes_map_id (E : Env) (cat : Catalog) :
    (modelNodes E cat).map GNode.id
      = (List.range cat.models.length).map
          (fun i => (categoriesOf cat).length + cat.vars.length + i) := by
  simp only [modelNodes]
  exact map_fst_style cat.models
    (fun p => mkModelNode E cat ((categoriesOf cat).length + cat.vars.length)
      p.1 p.2)
    GNode.id ((categoriesOf cat).length + cat.vars.length) (fun p => rfl)

/-- Source-node ids continue after all other ids. -/
lemma sourceNodes_map_id (E : Env) (rng : ℕ → ℚ) (cat : Catalog) :
    (sourceNodes E rng cat).map GNode.id
      = (List.range (sourceNamesOf cat).length).map
          (fun i => (categoriesOf cat).length + cat.vars.length
            + cat.models.length + i) := by
  simp only [sourceNodes]
  exact map_fst_style (sourceNamesOf cat)
    (fun p => mkSourceNode E rng cat
      ((categoriesOf cat).length + cat.vars.length + cat.models.length)
      p.1 p.2)
    GNode.id
    ((categoriesOf cat).length + cat.vars.length + cat.models.length)
    (fun p => rfl)

/-- The ids of a whole render pass are exactly `0, …, total - 1`. -/
lemma nodes_map_id (E : Env) (rng : ℕ → ℚ) (cat : Catalog) :
    (processData E rng cat).nodes.map GNode.id
      = List.range ((categoriesOf cat).length + cat.vars.length
          + cat.models.length + (sourceNamesOf cat).length) := by
  simp only [processData, List.map_append]
  rw [categoryNodes_map_id, variableNodes_map_id, modelNodes_map_id,
    sourceNodes_map_id, List.range_add, List.range_add, List.range_add]

/-- Category nodes carry the distinct category names, in order. -/
lemma categoryNodes_map_name (E : Env) (cat : Catalog) :
    (categoryNodes E cat).map GNode.name = categoriesOf cat := by
  simp only [categoryNodes]
  have h := map_snd_style (categoriesOf cat)
    (fun p => mkCategoryNode E cat (categoriesOf cat).length p.1 p.2)
    GNode.name (fun c => c) (fun p => rfl)
  simpa using h

/-- Variable nodes carry the variable ids, in order. -/
lemma variableNodes_map_vid (E : Env) (cat : Catalog) :
    (variableNodes E cat).map GNode.vid = cat.vars.map SVariable.vid := by
  simp only [variableNodes]
  exact map_snd_style cat.vars
    (fun p => mkVariableNode E cat (categoryNodes E cat)
      ((categoriesOf cat).length + p.1) p.2)
    GNode.vid SVariable.vid (fun p => rfl)

/-- Model nodes carry the model names, in order. -/
lemma modelNodes_map_name (E : Env) (cat : Catalog) :
    (modelNodes E cat).map GNode.name = cat.models.map SModel.name := by
  simp only [modelNodes]
  exact map_snd_style cat.models
    (fun p => mkModelNode E cat ((categoriesOf cat).length + cat.vars.length)
      p.1 p.2)
    GNode.name SModel.name (fun p => rfl)

/-- Source nodes carry the filtered deduplicated source names, in order. -/
lemma sourceNodes_map_name (E : Env) (rng : ℕ → ℚ) (cat : Catalog) :
    (sourceNodes E rng cat).map GNode.name = sourceNamesOf cat := by
  simp only [sourceNodes]
  have h := map_snd_style (sourceNamesOf cat)
    (fun p => mkSourceNode E rng cat
      ((categoriesOf cat).length + cat.vars.length + cat.models.length)
      p.1 p.2)
    GNode.name (fun s => s) (fun p => rfl)
  simpa using h

/-- Every phase-1 node is a category node. -/
lemma ntype_categoryNodes {E : Env} {cat : Catalog} :
    ∀ n ∈ categoryNodes E cat, n.ntype = "category" := by
  intro n hn
  simp only [categoryNodes, List.mem_map] at hn
  obtain ⟨p, _, rfl⟩ := hn
  rfl

/-- Every phase-2 node is a variable node. -/
lemma ntype_variableNodes {E : Env} {cat : Catalog} :
    ∀ n ∈ variableNodes E cat, n.ntype = "variable" := by
  intro n hn
  simp only [variableNodes, List.mem_map] at hn
  obtain ⟨p, _, rfl⟩ := hn
  rfl

/-- Every phase-3 node is a model node. -/
lemma ntype_modelNodes {E : Env} {cat : Catalog} :
    ∀ n ∈ modelNodes E cat, n.ntype = "model" := by
  intro n hn
  simp only [modelNodes, List.mem_map] at hn
  obtain ⟨p, _, rfl⟩ := hn
  rfl

/-- Every phase-4 node is a source node. -/
lemma ntype_sourceNodes {E : Env} {rng : ℕ → ℚ} {cat : Catalog} :
    ∀ n ∈ sourceNodes E rng cat, n.ntype = "source" := by
  intro n hn
  simp only [sourceNodes, List.mem_map] at hn
  obtain ⟨p, _, rfl⟩ := hn
  rfl

/-- A type-homogeneous node list survives a filter on its own type. -/
lemma filter_ntype_self {ns : List GNode} {t : String}
    (h : ∀ n ∈ ns, n.ntype = t) :
    ns.filter (fun n => n.ntype == t) = ns :=
  List.filter_eq_self.mpr (fun n hn => by simp [h n hn])

/-- A type-homogeneous node list vanishes under a filter on another type. -/
lemma filter_ntype_nil {ns : List GNode} {t t' : String}
    (h : ∀ n ∈ ns, n.ntype = t) (hne : t ≠ t') :
    ns.filter (fun n => n.ntype == t') = [] :=
  List.filter_eq_nil_iff.mpr (fun n hn => by simp [h n hn, hne])

/-- A link-type-homogeneous list survives a filter on its own type. -/
lemma filter_ltype_self {ls : List GLink} {t : String}
    (h : ∀ l ∈ ls, l.ltype = t) :
    ls.filter (fun l => l.ltype == t) = ls :=
  List.filter_eq_self.mpr (fun l hl => by simp [h l hl])

/-- A link-type-homogeneous list vanishes under a filter on another type. -/
lemma filter_ltype_nil {ls : List GLink} {t t' : String}
    (h : ∀ l ∈ ls, l.ltype = t) (hne : t ≠ t') :
    ls.filter (fun l => l.ltype == t') = [] :=
  List.filter_eq_nil_iff.mpr (fun l hl => by simp [h l hl, hne])

/-- The category of every catalog variable occurs among the distinct
categories. -/
lemma mem_categoriesOf {cat : Catalog} {v : SVariable} (hv : v ∈ cat.vars) :
    v.category ∈ categoriesOf cat := by
  rw [categoriesOf, mem_firstDedup]
  exact List.mem_map_of_mem _ hv

/-- The category lookup of an occurring category always succeeds. -/
lemma lookupCategoryNode_isSome {E : Env} {cat : Catalog} {c : String}
    (hc : c ∈ categoriesOf cat) :
    (lookupCategoryNode (categoryNodes E cat) c).isSome := by
  have hmem : c ∈ (categoryNodes E cat).map GNode.name := by
    rw [categoryNodes_map_name]
    exact hc
  obtain ⟨n, hn, hname⟩ := List.mem_map.mp hmem
  exact lastWith_isSome_iff.mpr ⟨n, hn, by simp [hname]⟩

/-- The variable lookup of a catalog variable always succeeds. -/
lemma lookupVariableNode_isSome {E : Env} {cat : Catalog} {v : SVariable}
    (hv : v ∈ cat.vars) :
    (lookupVariableNode (variableNodes E cat) v.vid).isSome := by
  have hmem : v.vid ∈ (variableNodes E cat).map GNode.vid := by
    rw [variableNodes_map_vid]
    exact List.mem_map_of_mem _ hv
  obtain ⟨n, hn, hname⟩ := List.mem_map.mp hmem
  exact lastWith_isSome_iff.mpr ⟨n, hn, by simp [hname]⟩

/-- The model lookup succeeds exactly for names present in the model
list. -/
lemma lookupModelNode_isSome_iff {E : Env} {cat : Catalog} {m : String} :
    (lookupModelNode (modelNodes E cat) m).isSome
      ↔ m ∈ cat.models.map SModel.name := by
  rw [lookupModelNode, lastWith_isSome_iff]
  constructor
  · rintro ⟨n, hn, hname⟩
    have heq : n.name = m := by simpa using hname
    rw [← heq, ← modelNodes_map_name E cat]
    exact List.mem_map_of_mem _ hn
  · intro hm
    rw [← modelNodes_map_name E cat] at hm
    obtain ⟨n, hn, hname⟩ := List.mem_map.mp hm
    exact ⟨n, hn, by simp [hname]⟩

/-- The name of every source node passed the dirty-name filter. -/
lemma name_mem_sourceNamesOf {E : Env} {rng : ℕ → ℚ} {cat : Catalog}
    {sn : GNode} (h : sn ∈ sourceNodes E rng cat) :
    sn.name ∈ sourceNamesOf cat := by
  rw [← sourceNodes_map_name E rng cat]
  exact List.mem_map_of_mem _ h

/-- Inversion for membership in the category-variable link phase. -/
lemma mem_cvLinks {E : Env} {cat : Catalog} {lk : GLink}
    (h : lk ∈ categoryVariableLinks E cat) :
    ∃ v ∈ cat.vars, ∃ vn cn,
      lookupVariableNode (variableNodes E cat) v.vid = some vn ∧
      lookupCategoryNode (categoryNodes E cat) v.category = some cn ∧
      lk = { source := cn.id, target := vn.id, ltype := "category-variable",
             strength := 8 / 10, color := "#43e97b", distance := 80 } := by
  simp only [categoryVariableLinks, List.mem_filterMap] at h
  obtain ⟨v, hv, hsome⟩ := h
  refine ⟨v, hv, ?_⟩
  cases h1 : lookupVariableNode (variableNodes E cat) v.vid with
  | none => rw [h1] at hsome; simp at hsome
  | some vn =>
    cases h2 : lookupCategoryNode (categoryNodes E cat) v.category with
    | none => rw [h1, h2] at hsome; simp at hsome
    | some cn =>
      rw [h1, h2] at hsome
      simp only [Option.some_inj] at hsome
      exact ⟨vn, cn, rfl, rfl, hsome.symm⟩

/-- Inversion for membership in the variable-model link phase. -/
lemma mem_vmLinks {E : Env} {cat : Catalog} {lk : GLink}
    (h : lk ∈ variableModelLinks E cat) :
    ∃ v ∈ cat.vars, ∃ m ∈ v.models, ∃ vn mn,
      lookupVariableNode (variableNodes E cat) v.vid = some vn ∧
      lookupModelNode (modelNodes E cat) m = some mn ∧
      lk = { source := vn.id, target := mn.id, ltype := "variable-model",
             strength := 4 / 10, color := "#667eea", distance := 150 } := by
  simp only [variableModelLinks, List.mem_flatMap, List.mem_filterMap] at h
  obtain ⟨v, hv, m, hm, hsome⟩ := h
  refine ⟨v, hv, m, hm, ?_⟩
  cases h1 : lookupVariableNode (variableNodes E cat) v.vid with
  | none => rw [h1] at hsome; simp at hsome
  | some vn =>
    cases h2 : lookupModelNode (modelNodes E cat) m with
    | none => rw [h1, h2] at hsome; simp at hsome
    | some mn =>
      rw [h1, h2] at hsome
      simp only [Option.some_inj] at hsome
      exact ⟨vn, mn, rfl, rfl, hsome.symm⟩

/-- Inversion for membership in the variable-source link phase. -/
lemma mem_vsLinks {E : Env} {rng : ℕ → ℚ} {cat : Catalog} {lk : GLink}
    (h : lk ∈ variableSourceLinks E rng cat) :
    ∃ v ∈ cat.vars, ∃ sName ∈ v.sources, ∃ vn sn,
      lookupVariableNode (variableNodes E cat) v.vid = some vn ∧
      lookupSourceNode (sourceNodes E rng cat) sName.trim = some sn ∧
      sName.trim ≠ "Various sources" ∧
      lk = { source := vn.id, target := sn.id, ltype := "variable-source",
             strength := 2 / 10, color := "#ffa726", distance := 120 } := by
  simp only [variableSourceLinks, List.mem_flatMap, List.mem_filterMap] at h
  obtain ⟨v, hv, sName, hs, hsome⟩ := h
  refine ⟨v, hv, sName, hs, ?_⟩
  cases h1 : lookupVariableNode (variableNodes E cat) v.vid with
  | none => rw [h1] at hsome; simp at hsome
  | some vn =>
    cases h2 : lookupSourceNode (sourceNodes E rng cat) sName.trim with
    | none => rw [h1, h2] at hsome; simp at hsome
    | some sn =>
      rw [h1, h2] at hsome
      by_cases hvs : sName.trim = "Various sources"
      · simp [hvs] at hsome
      · simp [hvs] at hsome
        exact ⟨vn, sn, rfl, rfl, hvs, hsome.symm⟩

/-- Every phase-1 link carries the `category-variable` tag. -/
lemma ltype_cvLinks {E : Env} {cat : Catalog} :
    ∀ lk ∈ categoryVariableLinks E cat, lk.ltype = "category-variable" := by
  intro lk h
  obtain ⟨v, _, vn, cn, _, _, rfl⟩ := mem_cvLinks h
  rfl

/-- Every phase-2 link carries the `variable-model` tag. -/
lemma ltype_vmLinks {E : Env} {cat : Catalog} :
    ∀ lk ∈ variableModelLinks E cat, lk.ltype = "variable-model" := by
  intro lk h
  obtain ⟨v, _, m, _, vn, mn, _, _, rfl⟩ := mem_vmLinks h
  rfl

/-- Every phase-3 link carries the `variable-source` tag. -/
lemma ltype_vsLinks {E : Env} {rng : ℕ → ℚ} {cat : Catalog} :
    ∀ lk ∈ variableSourceLinks E rng cat, lk.ltype = "variable-source" := by
  intro lk h
  obtain ⟨v, _, s, _, vn, sn, _, _, _, rfl⟩ := mem_vsLinks h
  rfl

/-- A successful `find?` splits its list at the found element, with the
predicate failing on everything before it. -/
lemma find?_eq_some_split {α : Type} (p : α → Bool) :
    ∀ (l : List α) (a : α), l.find? p = some a →
      ∃ l₁ l₂, l = l₁ ++ a :: l₂ ∧ ∀ b ∈ l₁, p b = false := by
  intro l
  induction l with
  | nil => intro a h; simp at h
  | cons x t ih =>
    intro a h
    rw [List.find?_cons] at h
    cases hpx : p x with
    | true =>
      rw [hpx] at h
      simp only [Option.some_inj] at h
      subst h
      exact ⟨[], t, rfl, by simp⟩
    | false =>
      rw [hpx] at h
      obtain ⟨l₁, l₂, rfl, hall⟩ := ih a h
      refine ⟨x :: l₁, l₂, rfl, ?_⟩
      intro b hb
      rcases List.mem_cons.mp hb with rfl | hb'
      · exact hpx
      · exact hall b hb'

end Lemmas


section ConcreteLemmas

/-- The far demo node is within the hit radius of the origin. -/
lemma hfar_within : withinHitRadius hitDemoFar 0 0 = true := by
  norm_num [withinHitRadius, distSq, hitDemoFar]

/-- The near demo node is within the hit radius of the origin. -/
lemma hnear_within : withinHitRadius hitDemoNear 0 0 = true := by
  norm_num [withinHitRadius, distSq, hitDemoNear]

/-- The radius field of every category node is the category formula
applied to its associated-variable count. -/
lemma radius_categoryNodes {E : Env} {cat : Catalog} :
    ∀ n ∈ categoryNodes E cat, n.radius = categoryNodeRadius n.vars.length := by
  intro n hn
  simp only [categoryNodes, List.mem_map] at hn
  obtain ⟨p, _, rfl⟩ := hn
  rfl

/-- The radius field of every model node is the model formula applied to
its associated-variable count. -/
lemma radius_modelNodes {E : Env} {cat : Catalog} :
    ∀ n ∈ modelNodes E cat, n.radius = modelNodeRadius n.vars.length := by
  intro n hn
  simp only [modelNodes, List.mem_map] at hn
  obtain ⟨p, _, rfl⟩ := hn
  rfl

/-- The radius field of every source node is the source formula applied
to its associated-variable count. -/
lemma radius_sourceNodes {E : Env} {rng : ℕ → ℚ} {cat : Catalog} :
    ∀ n ∈ sourceNodes E rng cat, n.radius = sourceNodeRadius n.vars.length := by
  intro n hn
  simp only [sourceNodes, List.mem_map] at hn
  obtain ⟨p, _, rfl⟩ := hn
  rfl

end ConcreteLemmas

/-- C1, counterexample: `getNodeAt` does not return the nearest node
within the 20-pixel threshold.  With the pointer at the origin and the
node list `[hitDemoFar, hitDemoNear]`, both nodes are within the
threshold and `hitDemoNear` is strictly nearer, yet `getNodeAt` returns
`hitDemoFar` — `Array.prototype.find` keeps the first match in list
order, not the nearest. -/
theorem getNodeAt_not_nearest :
    getNodeAt [hitDemoFar, hitDemoNear] 0 0 = some hitDemoFar ∧
    withinHitRadius hitDemoNear 0 0 = true ∧
    distSq hitDemoNear 0 0 < distSq hitDemoFar 0 0 := by
  refine ⟨?_, hnear_within, ?_⟩
  · simp [getNodeAt, List.find?_cons, hfar_within]
  · norm_num [distSq, hitDemoFar, hitDemoNear]

/-- C1, amended: `getNodeAt` returns `none` exactly when no node lies
within the fixed 20-pixel threshold of the pointer, and otherwise
returns the first node in list order within the threshold (every node
preceding it in the list is outside the threshold). -/
theorem getNodeAt_first_within (nodes : List GNode) (x y : ℚ) :
    (getNodeAt nodes x y = none
      ↔ ∀ n ∈ nodes, withinHitRadius n x y = false) ∧
    (∀ n, getNodeAt nodes x y = some n →
      n ∈ nodes ∧ withinHitRadius n x y = true ∧
      ∃ pre post, nodes = pre ++ n :: post ∧
        ∀ m ∈ pre, withinHitRadius m x y = false) := by
  constructor
  · rw [getNodeAt, List.find?_eq_none]
    simp
  · intro n h
    rw [getNodeAt] at h
    refine ⟨List.mem_of_find?_eq_some h, ?_, find?_eq_some_split _ nodes n h⟩
    have h2 := List.find?_some h
    simpa using h2

/-- C1, witness: the amended characterisation applied to a singleton
node list whose node is inside the threshold. -/
theorem getNodeAt_first_within_witness :
    hitDemoFar ∈ [hitDemoFar] ∧ withinHitRadius hitDemoFar 0 0 = true ∧
    ∃ pre post, [hitDemoFar] = pre ++ hitDemoFar :: post ∧
      ∀ m ∈ pre, withinHitRadius m 0 0 = false :=
  (getNodeAt_first_within [hitDemoFar] 0 0).2 hitDemoFar
    (by simp [getNodeAt, List.find?_cons, hfar_within])

/-- C2, counterexample: the category-node radius `40 + count * 1.2` is
not saturating — it is unbounded in the count of associated variables,
so the radius growth is not capped for every node type built by
`processData`. -/
theorem categoryNodeRadius_not_capped :
    ¬ ∃ C : ℚ, ∀ n : ℕ, categoryNodeRadius n ≤ C := by
  rintro ⟨C, hC⟩
  obtain ⟨n, hn⟩ := exists_nat_gt C
  have h := hC n
  rw [categoryNodeRadius] at h
  have hc : (0 : ℚ) ≤ (n : ℚ) := Nat.cast_nonneg n
  linarith

/-- C2, amended: for the category, model and source node types the
radius assigned by `processData` is the respective formula of the
associated-variable count, each formula is monotonically non-decreasing
in that count, and the source radius saturates (capped at 14) — but the
category and model radii grow linearly without a cap. -/
theorem nodeRadius_monotone_saturation :
    (∀ m n : ℕ, m ≤ n → categoryNodeRadius m ≤ categoryNodeRadius n) ∧
    (∀ m n : ℕ, m ≤ n → modelNodeRadius m ≤ modelNodeRadius n) ∧
    (∀ m n : ℕ, m ≤ n → sourceNodeRadius m ≤ sourceNodeRadius n) ∧
    (∀ n : ℕ, sourceNodeRadius n ≤ 14) ∧
    (∀ (E : Env) (cat : Catalog) (i : Fin (categoryNodes E cat).length),
      ((categoryNodes E cat).get i).radius
        = categoryNodeRadius ((categoryNodes E cat).get i).vars.length) ∧
    (∀ (E : Env) (cat : Catalog) (i : Fin (modelNodes E cat).length),
      ((modelNodes E cat).get i).radius
        = modelNodeRadius ((modelNodes E cat).get i).vars.length) ∧
    (∀ (E : Env) (rng : ℕ → ℚ) (cat : Catalog)
        (i : Fin (sourceNodes E rng cat).length),
      ((sourceNodes E rng cat).get i).radius
        = sourceNodeRadius ((sourceNodes E rng cat).get i).vars.length) := by
  refine ⟨?_, ?_, ?_, ?_, ?_, ?_, ?_⟩
  · intro m n h
    have hc : (m : ℚ) ≤ (n : ℚ) := Nat.cast_le.mpr h
    rw [categoryNodeRadius, categoryNodeRadius]
    nlinarith
  · intro m n h
    have hc : (m : ℚ) ≤ (n : ℚ) := Nat.cast_le.mpr h
    rw [modelNodeRadius, modelNodeRadius]
    nlinarith
  · intro m n h
    have hc : (m : ℚ) ≤ (n : ℚ) := Nat.cast_le.mpr h
    rw [sourceNodeRadius, sourceNodeRadius]
    have hmin : min ((m : ℚ) * (8 / 10)) 8 ≤ min ((n : ℚ) * (8 / 10)) 8 :=
      min_le_min (by nlinarith) le_rfl
    linarith
  · intro n
    rw [sourceNodeRadius]
    have := min_le_right ((n : ℚ) * (8 / 10)) 8
    linarith
  · intro E cat i
    exact radius_categoryNodes _ (List.get_mem _ _ i.2)
  · intro E cat i
    exact radius_modelNodes _ (List.get_mem _ _ i.2)
  · intro E rng cat i
    exact radius_sourceNodes _ (List.get_mem _ _ i.2)

/-- C2, witness: the monotonicity and saturation facts at concrete
counts. -/
theorem nodeRadius_monotone_saturation_witness :
    categoryNodeRadius 1 ≤ categoryNodeRadius 3 ∧
    modelNodeRadius 1 ≤ modelNodeRadius 3 ∧
    sourceNodeRadius 1 ≤ sourceNodeRadius 3 ∧
    sourceNodeRadius 100 ≤ 14 :=
  ⟨nodeRadius_monotone_saturation.1 1 3 (by decide),
   nodeRadius_monotone_saturation.2.1 1 3 (by decide),
   nodeRadius_monotone_saturation.2.2.1 1 3 (by decide),
   nodeRadius_monotone_saturation.2.2.2.1 100⟩

/-- C4: the number of category-type nodes produced by `processData`
equals the number of distinct category values across the input
variables. -/
theorem processData_categoryNodeCount (E : Env) (rng : ℕ → ℚ) (cat : Catalog) :
    ((processData E rng cat).nodes.filter
        (fun n => n.ntype == "category")).length
      = (cat.vars.map (fun v => v.category)).toFinset.card := by
  simp only [processData, List.filter_append]
  rw [filter_ntype_self ntype_categoryNodes,
    filter_ntype_nil ntype_variableNodes (by decide),
    filter_ntype_nil ntype_modelNodes (by decide),
    filter_ntype_nil ntype_sourceNodes (by decide)]
  simp only [List.append_nil, List.length_append, List.length_nil,
    Nat.add_zero]
  rw [categoryNodes, List.length_map, List.enum_length, categoriesOf,
    length_firstDedup]

/-- C5: `processData` creates exactly one variable-type node per input
variable, and exactly one category-variable link per input variable. -/
theorem processData_variableNodeAndLinkCount (E : Env) (rng : ℕ → ℚ)
    (cat : Catalog) :
    (((processData E rng cat).nodes.filter
        (fun n => n.ntype == "variable")).length = cat.vars.length) ∧
    (((processData E rng cat).links.filter
        (fun l => l.ltype == "category-variable")).length = cat.vars.length) := by
  constructor
  · simp only [processData, List.filter_append]
    rw [filter_ntype_nil ntype_categoryNodes (by decide),
      filter_ntype_self ntype_variableNodes,
      filter_ntype_nil ntype_modelNodes (by decide),
      filter_ntype_nil ntype_sourceNodes (by decide)]
    simp only [List.nil_append, List.append_nil, List.length_append,
      List.length_nil, Nat.add_zero]
    rw [variableNodes, List.length_map, List.enum_length]
  · simp only [processData, List.filter_append]
    rw [filter_ltype_self ltype_cvLinks,
      filter_ltype_nil ltype_vmLinks (by decide),
      filter_ltype_nil ltype_vsLinks (by decide)]
    simp only [List.append_nil, List.length_append, List.length_nil,
      Nat.add_zero]
    rw [categoryVariableLinks]
    apply length_filterMap_of_isSome
    intro v hv
    obtain ⟨vn, hvn⟩ :=
      Option.isSome_iff_exists.mp (lookupVariableNode_isSome hv)
    obtain ⟨cn, hcn⟩ :=
      Option.isSome_iff_exists.mp
        (lookupCategoryNode_isSome (mem_categoriesOf hv))
    rw [hvn, hcn]
    rfl

/-- C7: the initial layout of the category, variable and model nodes is
deterministic — it does not depend on the random stream, which only
enters the source-node phase.  Two runs of `processData` on the same
catalog, canvas dimensions and trig functions produce identical nodes
of these three types (ids, names, positions, radii and all). -/
theorem processData_layout_deterministic (E : Env) (rng₁ rng₂ : ℕ → ℚ)
    (cat : Catalog) :
    (processData E rng₁ cat).nodes.filter
        (fun n => n.ntype == "category" || n.ntype == "variable"
          || n.ntype == "model")
      = (processData E rng₂ cat).nodes.filter
        (fun n => n.ntype == "category" || n.ntype == "variable"
          || n.ntype == "model") := by
  have hc : ∀ n ∈ categoryNodes E cat,
      (n.ntype == "category" || n.ntype == "variable"
        || n.ntype == "model") = true :=
    fun n hn => by simp [ntype_categoryNodes n hn]
  have hv : ∀ n ∈ variableNodes E cat,
      (n.ntype == "category" || n.ntype == "variable"
        || n.ntype == "model") = true :=
    fun n hn => by simp [ntype_variableNodes n hn]
  have hm : ∀ n ∈ modelNodes E cat,
      (n.ntype == "category" || n.ntype == "variable"
        || n.ntype == "model") = true :=
    fun n hn => by simp [ntype_modelNodes n hn]
  have hs : ∀ (rng : ℕ → ℚ), ∀ n ∈ sourceNodes E rng cat,
      ¬ (n.ntype == "category" || n.ntype == "variable"
        || n.ntype == "model") = true :=
    fun rng n hn => by simp [ntype_sourceNodes n hn]
  simp only [processData, List.filter_append]
  rw [List.filter_eq_self.mpr hc, List.filter_eq_self.mpr hv,
    List.filter_eq_self.mpr hm, List.filter_eq_nil_iff.mpr (hs rng₁),
    List.filter_eq_nil_iff.mpr (hs rng₂)]

/-- C8: `update` keeps the node count and rewrites only the `variables`
field of the category nodes (re-filtered per category name); every
non-category node, and every other field of the category nodes, is
unchanged. -/
theorem update_frame (vs : List SVariable) (ns : List GNode) :
    (update vs ns).length = ns.length ∧
    List.Forall₂ (fun n nn =>
      (n.ntype = "category" →
        nn = { n with vars := vs.filter (fun v => v.category == n.name) }) ∧
      (n.ntype ≠ "category" → nn = n)) ns (update vs ns) := by
  constructor
  · simp [update]
  · rw [update, List.forall₂_map_right_iff, List.forall₂_same]
    intro n hn
    by_cases h : n.ntype = "category"
    · exact ⟨fun _ => by simp [h], fun hc => absurd h hc⟩
    · exact ⟨fun hc => absurd hc h, fun _ => by simp [h]⟩

/-- C9: when the canvas or the d3 capability is missing, `init` logs a
warning and returns with the state unchanged, and on the resulting
uninitialised state `render`, `exportImage` and `reset` return without
any effect; all four entry points are total functions (nothing throws). -/
theorem missing_capability_noop (st : NVState) (E : Env) (rng : ℕ → ℚ)
    (canvasProvided d3Available : Bool) (cat : Catalog)
    (hmiss : canvasProvided = false ∨ d3Available = false)
    (hcanvas : st.canvasSet = false) (hcontext : st.contextSet = false) :
    st.init E rng canvasProvided d3Available cat = (st, [Eff.warnMissing]) ∧
    st.render = (st, []) ∧
    st.exportImage = (st, []) ∧
    st.reset d3Available = (st, []) := by
  refine ⟨?_, ?_, ?_, ?_⟩
  · rcases hmiss with h | h <;> simp [NVState.init, h]
  · simp [NVState.render, hcontext]
  · simp [NVState.exportImage, hcanvas]
  · simp [NVState.reset, hcanvas]

/-- C9, witness: the guard behaviour on the constructor state with both
capabilities missing. -/
theorem missing_capability_noop_witness :
    NVState.init initialState E0 rng0 false false demoCat
      = (initialState, [Eff.warnMissing]) ∧
    NVState.render initialState = (initialState, []) ∧
    NVState.exportImage initialState = (initialState, []) ∧
    NVState.reset initialState false = (initialState, []) :=
  missing_capability_noop initialState E0 rng0 false false demoCat
    (Or.inl rfl) rfl rfl

section LinkLemmas

/-- Filtering the links of a render pass on the `variable-model` tag
yields exactly the phase-2 links. -/
lemma filter_links_vm (E : Env) (rng : ℕ → ℚ) (cat : Catalog) :
    (processData E rng cat).links.filter (fun l => l.ltype == "variable-model")
      = variableModelLinks E cat := by
  simp only [processData, List.filter_append]
  rw [filter_ltype_nil ltype_cvLinks (by decide),
    filter_ltype_self ltype_vmLinks,
    filter_ltype_nil ltype_vsLinks (by decide)]
  simp

/-- Filtering the links of a render pass on the `variable-source` tag
yields exactly the phase-3 links. -/
lemma filter_links_vs (E : Env) (rng : ℕ → ℚ) (cat : Catalog) :
    (processData E rng cat).links.filter (fun l => l.ltype == "variable-source")
      = variableSourceLinks E rng cat := by
  simp only [processData, List.filter_append]
  rw [filter_ltype_nil ltype_cvLinks (by decide),
    filter_ltype_nil ltype_vmLinks (by decide),
    filter_ltype_self ltype_vsLinks]
  simp

/-- Both endpoints of every link of a render pass are ids of nodes of
the same render pass. -/
lemma links_endpoints {E : Env} {rng : ℕ → ℚ} {cat : Catalog} {lk : GLink}
    (hlk : lk ∈ (processData E rng cat).links) :
    (∃ n ∈ (processData E rng cat).nodes, n.id = lk.source) ∧
    (∃ n ∈ (processData E rng cat).nodes, n.id = lk.target) := by
  simp only [processData, List.mem_append, or_assoc] at hlk
  rcases hlk with h | h | h
  · obtain ⟨v, hv, vn, cn, hvn, hcn, rfl⟩ := mem_cvLinks h
    have hcm : cn ∈ categoryNodes E cat := (lastWith_eq_some hcn).1
    have hvm : vn ∈ variableNodes E cat := (lastWith_eq_some hvn).1
    exact ⟨⟨cn, by simp only [processData, List.mem_append]; tauto, rfl⟩,
      ⟨vn, by simp only [processData, List.mem_append]; tauto, rfl⟩⟩
  · obtain ⟨v, hv, m, hm, vn, mn, hvn, hmn, rfl⟩ := mem_vmLinks h
    have hvm : vn ∈ variableNodes E cat := (lastWith_eq_some hvn).1
    have hmm : mn ∈ modelNodes E cat := (lastWith_eq_some hmn).1
    exact ⟨⟨vn, by simp only [processData, List.mem_append]; tauto, rfl⟩,
      ⟨mn, by simp only [processData, List.mem_append]; tauto, rfl⟩⟩
  · obtain ⟨v, hv, sName, hs, vn, sn, hvn, hsn, hne, rfl⟩ := mem_vsLinks h
    have hvm : vn ∈ variableNodes E cat := (lastWith_eq_some hvn).1
    have hsm : sn ∈ sourceNodes E rng cat := (lastWith_eq_some hsn).1
    exact ⟨⟨vn, by simp only [processData, List.mem_append]; tauto, rfl⟩,
      ⟨sn, by simp only [processData, List.mem_append]; tauto, rfl⟩⟩

/-- The target of every `variable-source` link is a source node whose
name is neither `"Various sources"` nor empty. -/
lemma vsLink_target {E : Env} {rng : ℕ → ℚ} {cat : Catalog} {lk : GLink}
    (hlk : lk ∈ variableSourceLinks E rng cat) :
    ∃ sn ∈ (processData E rng cat).nodes, lk.target = sn.id ∧
      sn.ntype = "source" ∧ sn.name ≠ "Various sources" ∧ sn.name ≠ "" := by
  obtain ⟨v, hv, sName, hs, vn, sn, hvn, hsn, hne, rfl⟩ := mem_vsLinks hlk
  have hmem : sn ∈ sourceNodes E rng cat := (lastWith_eq_some hsn).1
  have hfilter : sn.name ∈ sourceNamesOf cat := name_mem_sourceNamesOf hmem
  rw [sourceNamesOf, List.mem_filter] at hfilter
  have h2 := hfilter.2
  simp at h2
  exact ⟨sn, by simp only [processData, List.mem_append]; tauto, rfl,
    ntype_sourceNodes sn hmem, h2.2, h2.1⟩

end LinkLemmas

/-- C3: `processData` creates exactly one variable-model edge for each
(variable, model-name) pair whose name occurs in the model list — the
link count is the sum, over the variables, of the number of their model
names present in the model list (with duplicate-free per-variable model
lists these are exactly the present pairs) — and every created edge
targets an existing model node whose name is in the model list.  Pairs
whose model name is absent produce nothing; `processData` is a total
function, so no error is raised. -/
theorem processData_variableModelLinkSpec (E : Env) (rng : ℕ → ℚ)
    (cat : Catalog) (hnd : ∀ v ∈ cat.vars, v.models.Nodup) :
    (((processData E rng cat).links.filter
        (fun l => l.ltype == "variable-model")).length
      = (cat.vars.map (fun v =>
          (v.models.filter
            (fun m => decide (m ∈ cat.models.map SModel.name))).length)).sum) ∧
    (∀ lk ∈ (processData E rng cat).links.filter
        (fun l => l.ltype == "variable-model"),
      ∃ mn ∈ (processData E rng cat).nodes,
        lk.target = mn.id ∧ mn.ntype = "model" ∧
        mn.name ∈ cat.models.map SModel.name) := by
  constructor
  · rw [filter_links_vm, variableModelLinks, List.length_flatMap]
    apply congrArg
    apply List.map_congr_left
    intro v hv
    obtain ⟨vn, hvn⟩ :=
      Option.isSome_iff_exists.mp (lookupVariableNode_isSome hv)
    simp only [Function.comp]
    apply length_filterMap_eq_filter
    intro m hm
    rw [hvn]
    cases hlm : lookupModelNode (modelNodes E cat) m with
    | some mn =>
      have hin : m ∈ cat.models.map SModel.name :=
        lookupModelNode_isSome_iff.mp (by rw [hlm]; rfl)
      simp [hin]
    | none =>
      have hout : m ∉ cat.models.map SModel.name := by
        intro hmem
        have hsome : (lookupModelNode (modelNodes E cat) m).isSome :=
          lookupModelNode_isSome_iff.mpr hmem
        rw [hlm] at hsome
        simp at hsome
      simp [hout]
  · intro lk hlk
    rw [filter_links_vm] at hlk
    obtain ⟨v, hv, m, hm, vn, mn, hvn, hmn, rfl⟩ := mem_vmLinks hlk
    have hmem : mn ∈ modelNodes E cat := (lastWith_eq_some hmn).1
    refine ⟨mn, by simp only [processData, List.mem_append]; tauto, rfl,
      ntype_modelNodes mn hmem, ?_⟩
    rw [← modelNodes_map_name E cat]
    exact List.mem_map_of_mem _ hmem

/-- C3, witness: the edge-count law and the edge-target law on the demo
catalog, where one variable references the missing model `NOPE`. -/
theorem processData_variableModelLinkSpec_witness :
    (((processData E0 rng0 demoCat).links.filter
        (fun l => l.ltype == "variable-model")).length
      = (demoCat.vars.map (fun v =>
          (v.models.filter
            (fun m => decide (m ∈ demoCat.models.map SModel.name))).length)).sum) ∧
    (∀ lk ∈ (processData E0 rng0 demoCat).links.filter
        (fun l => l.ltype == "variable-model"),
      ∃ mn ∈ (processData E0 rng0 demoCat).nodes,
        lk.target = mn.id ∧ mn.ntype = "model" ∧
        mn.name ∈ demoCat.models.map SModel.name) :=
  processData_variableModelLinkSpec E0 rng0 demoCat (by decide)

/-- C6: within one render pass every node id is unique (the ids are the
consecutive naturals of a single counter), and for every produced link
both endpoints are ids of nodes present in the node list. -/
theorem processData_ids_unique_links_closed (E : Env) (rng : ℕ → ℚ)
    (cat : Catalog) :
    ((processData E rng cat).nodes.map GNode.id).Nodup ∧
    (∀ i : Fin (processData E rng cat).links.length,
      (∃ n ∈ (processData E rng cat).nodes,
        n.id = ((processData E rng cat).links.get i).source) ∧
      (∃ n ∈ (processData E rng cat).nodes,
        n.id = ((processData E rng cat).links.get i).target)) := by
  constructor
  · rw [nodes_map_id]
    exact List.nodup_range _
  · intro i
    exact links_endpoints (List.get_mem _ _ i.2)

/-- C10: `processData` creates exactly one source node per distinct
trimmed source string, except for the empty string and
`"Various sources"` (the source-node names are the deduplicated trimmed
sources with those two dropped, in order), and every `variable-source`
link targets a source node whose name is neither `"Various sources"`
nor empty — such references are dropped without error. -/
theorem processData_sourceNodesFiltered (E : Env) (rng : ℕ → ℚ)
    (cat : Catalog) :
    (((processData E rng cat).nodes.filter
        (fun n => n.ntype == "source")).map GNode.name
      = (allSourcesList cat).filter
          (fun s => !(s == "") && !(s == "Various sources"))) ∧
    (∀ i : Fin ((processData E rng cat).links.filter
        (fun l => l.ltype == "variable-source")).length,
      ∃ sn ∈ (processData E rng cat).nodes,
        (((processData E rng cat).links.filter
            (fun l => l.ltype == "variable-source")).get i).target = sn.id ∧
        sn.ntype = "source" ∧ sn.name ≠ "Various sources" ∧ sn.name ≠ "") := by
  constructor
  · simp only [processData, List.filter_append]
    rw [filter_ntype_nil ntype_categoryNodes (by decide),
      filter_ntype_nil ntype_variableNodes (by decide),
      filter_ntype_nil ntype_modelNodes (by decide),
      filter_ntype_self ntype_sourceNodes]
    simp only [List.nil_append]
    rw [sourceNodes_map_name, sourceNamesOf]
  · intro i
    have hmem : ((processData E rng cat).links.filter
        (fun l => l.ltype == "variable-source")).get i
          ∈ variableSourceLinks E rng cat := by
      rw [← filter_links_vs E rng cat]
      exact List.get_mem _ _ i.2
    exact vsLink_target hmem

end NetworkView
